import Mathlib

/-!
# Verification of the Mautic email-composition engine

Shallow embedding of the email-composition subsystem:
`VariableSubstitution` (placeholder substitution), `BlockSelector`
(block resolution by identifier / tag / tone), `EmailComposer`
(variable-map construction, subject derivation, single composition,
batch driver).  JavaScript objects are modelled as association lists of
`String × Value` where `Value := Option String` (`none` stands for a
`null`/`undefined` property value); JS truthiness on strings is the
"non-empty" test.  Fallible code returns `Except`.
-/

namespace Mautic

/-- A JS property value: `none` models `null`/`undefined`, `some s` a
stringified value. -/
abbrev Value := Option String

/-- A JS object: association list with distinct keys, insertion order. -/
abbrev Obj := List (String × Value)

/-- Property lookup in an association list: last-assignment-wins, the
semantics of a JS object built by literal entries, spreads and
assignments (later entries overwrite earlier ones).  On an object with
distinct keys — every object the code builds or receives — this agrees
with any lookup order. -/
def lookupLast (m : List (String × α)) (k : String) : Option α :=
  (m.reverse.find? (fun p => p.1 == k)).map (·.2)

/-- Property access `o[k]`: an absent key yields `undefined` (`none`). -/
def getV (o : Obj) (k : String) : Value :=
  (lookupLast o k).getD none

/-- `o[k]` coerced to a string, empty when absent/null. -/
def getStr (o : Obj) (k : String) : String :=
  (getV o k).getD ""

/-- JS truthiness of a string-or-nullish value: non-empty string. -/
def truthy : Value → Bool
  | none => false
  | some s => !(s == "")

/-- JS `a || b` on string-or-nullish values. -/
def jsOr (a b : Value) : Value :=
  if truthy a then a else b

/-- JS `a || d` where the final default is a plain string. -/
def jsOrD (a : Value) (d : String) : String :=
  match a with
  | some s => if s == "" then d else s
  | none => d

/-! ## Variable substitution (`VariableSubstitution`, email-composer.ts) -/

/-- JS `\w` character class: `[A-Za-z0-9_]`. -/
def isWordChar (c : Char) : Bool :=
  (('a' ≤ c && c ≤ 'z') || ('A' ≤ c && c ≤ 'Z') ||
   ('0' ≤ c && c ≤ '9') || c == '_')

/-- Longest prefix of word characters, with the remainder. -/
def takeWhileWord : List Char → List Char × List Char
  | [] => ([], [])
  | c :: cs =>
    if isWordChar c then
      let p := takeWhileWord cs
      (c :: p.1, p.2)
    else ([], c :: cs)

/-- Try to match the regex `\{\{(\w+)\}\}` at the head of the character
list; on success return the captured name and the remainder after the
match. -/
def matchTok (cs : List Char) : Option (String × List Char) :=
  match cs with
  | '{' :: '{' :: rest =>
    match takeWhileWord rest with
    | (w0 :: w, '}' :: '}' :: rest2) => some (String.mk (w0 :: w), rest2)
    | _ => none
  | _ => none

/-- The characters of the full matched token text `{{name}}`. -/
def tokenChars (name : String) : List Char :=
  '{' :: '{' :: (name.data ++ ['}', '}'])

/-- Worker for `substitute`: scan left to right as JS
`String.replace(/\{\{(\w+)\}\}/g, cb)` does; at each position either a
whole token is consumed and replaced or one character is copied.  The
fuel is the number of scan steps; each step consumes at least one
character, so `fuel = cs.length` always suffices (the fuel-0 case with a
non-empty list is unreachable then and copies the rest).  Strict mode
aborts with the first missing variable name. -/
def substGo (vars : Obj) (strict keep : Bool) :
    Nat → List Char → Except String (List Char)
  | _, [] => .ok []
  | 0, c :: cs => .ok (c :: cs)
  | fuel + 1, c :: cs =>
    match matchTok (c :: cs) with
    | some (name, rest) =>
      match lookupLast vars name with
      | some v =>
        (substGo vars strict keep fuel rest).map (fun r => (v.getD "").data ++ r)
      | none =>
        if strict then .error name
        else
          (substGo vars strict keep fuel rest).map
            (fun r => (if keep then tokenChars name else []) ++ r)
    | none => (substGo vars strict keep fuel cs).map (fun r => c :: r)

/-- `VariableSubstitution.substitute(text, variables, {strict, keepPlaceholders})`.
The error value is the missing variable's name (a thrown
`Missing required variable: <name>`). -/
def substitute (text : String) (vars : Obj) (strict keep : Bool) :
    Except String String :=
  (substGo vars strict keep text.data.length text.data).map String.mk

/-- Worker for `extractPlaceholders`: all token names in match order
(with repetitions). -/
def extractGo : Nat → List Char → List String
  | _, [] => []
  | 0, _ :: _ => []
  | fuel + 1, c :: cs =>
    match matchTok (c :: cs) with
    | some (name, rest) => name :: extractGo fuel rest
    | none => extractGo fuel cs

/-- Push a name onto the collected list unless already present
(the `!matches.includes(match[1])` check). -/
def pushUnique (acc : List String) (n : String) : List String :=
  if acc.contains n then acc else acc ++ [n]

/-- `VariableSubstitution.extractPlaceholders(text)`: distinct
placeholder names in order of first appearance. -/
def extractPlaceholders (text : String) : List String :=
  (extractGo text.data.length text.data).foldl pushUnique []

/-- `VariableSubstitution.validate(text, variables)`: dry-run listing
the placeholders with no corresponding variable. -/
def validate (text : String) (vars : Obj) : Bool × List String :=
  let missing := (extractPlaceholders text).filter
    (fun p => (lookupLast vars p).isNone)
  (missing.isEmpty, missing)

/-! ### Spec-side token policy (for the refinement statement of C3) -/

/-- Modelled from the spec's words (§4.3): the per-token resolution
policy — present and non-null ⇒ the stringified value; present but
null/undefined ⇒ empty string; absent in strict mode ⇒ a
`MissingVariable` failure naming the token; absent otherwise ⇒ empty
string, or the literal `{{name}}` when `keepPlaceholders` is set. -/
def resolveTokenSpec (vars : Obj) (strict keep : Bool) (name : String) :
    Except String (List Char) :=
  match lookupLast vars name with
  | some (some v) => .ok v.data
  | some none => .ok []
  | none =>
    if strict then .error name
    else .ok (if keep then tokenChars name else [])

/-- Scan a text into its literal characters and placeholder tokens, in
order, using the same leftmost-match discipline as the substitution
scanner. -/
def scanGo : Nat → List Char → List (Char ⊕ String)
  | _, [] => []
  | 0, c :: cs => (c :: cs).map Sum.inl
  | fuel + 1, c :: cs =>
    match matchTok (c :: cs) with
    | some (name, rest) => Sum.inr name :: scanGo fuel rest
    | none => Sum.inl c :: scanGo fuel cs

/-- Error-propagating map over a list (first failure aborts). -/
def mapMExcept (f : α → Except ε β) : List α → Except ε (List β)
  | [] => .ok []
  | a :: l =>
    match f a with
    | .error e => .error e
    | .ok b =>
      match mapMExcept f l with
      | .error e => .error e
      | .ok bs => .ok (b :: bs)

/-- Modelled from the spec's words (§4.3): substitution is the scan of
the text with every literal character kept and every token replaced per
`resolveTokenSpec`, aborting at the first strict-mode failure. -/
def substituteSpec (text : String) (vars : Obj) (strict keep : Bool) :
    Except String String :=
  (mapMExcept
      (fun it =>
        match it with
        | Sum.inl ch => .ok [ch]
        | Sum.inr n => resolveTokenSpec vars strict keep n)
      (scanGo text.data.length text.data)).map
    (fun l => String.mk l.flatten)

/-! ## Block selector (`BlockSelector`, part_003) -/

/-- One concrete wording of a block (`variants:[{id, text, ...}]`). -/
structure Variant where
  id : String
  text : String
deriving DecidableEq, Repr

/-- A reusable text fragment (`{id, category, tags[], tone?, variants}`). -/
structure EmailBlock where
  id : String
  category : String
  tags : List String
  tone : Option String
  variants : List Variant
deriving DecidableEq, Repr

/-- The loaded state of a `BlockSelector`: the identifier store reached
through `loadBlock` (cache plus backing files, keyed by the load
identifier) and the per-category index. -/
structure SelectorState where
  blocks : List (String × EmailBlock)
  byCategory : List (String × List EmailBlock)
deriving DecidableEq, Repr

/-- `loadBlock(blockId)`: cache/file lookup by identifier; `none` models
the caught load failure (warn and return `null`). -/
def loadBlock (st : SelectorState) (blockId : String) : Option EmailBlock :=
  lookupLast st.blocks blockId

/-- `getBlocksByCategory(category)`: the category index, empty when the
category has no entry. -/
def getBlocksByCategory (st : SelectorState) (category : String) :
    List EmailBlock :=
  (lookupLast st.byCategory category).getD []

/-- The block-resolution chain of `selectBlock`: direct load of
`category/selector`, then first tag match in the category, then first
tone match. -/
def resolveBlock (st : SelectorState) (category selector : String) :
    Option EmailBlock :=
  match loadBlock st (category ++ "/" ++ selector) with
  | some b => some b
  | none =>
    match (getBlocksByCategory st category).find?
        (fun b => b.tags.contains selector) with
    | some b => some b
    | none =>
      (getBlocksByCategory st category).find?
        (fun b => b.tone == some selector)

/-- `selectBlock(category, selector, variantId?)`: resolve a block, then
a variant — the one named by `variantId` when present on the block,
otherwise the block's first variant; `none` when no block matched or the
block has no usable variant. -/
def selectBlock (st : SelectorState) (category selector : String)
    (variantId : Option String) : Option (EmailBlock × Variant) :=
  match resolveBlock st category selector with
  | none => none
  | some block =>
    let v0 :=
      match variantId with
      | some vid => block.variants.find? (fun v => v.id == vid)
      | none => none
    let v1 :=
      match v0 with
      | some v => some v
      | none => block.variants.head?
    match v1 with
    | some v => some (block, v)
    | none => none

/-- `getRandomVariant(block)` with the random draw made explicit: an
index `i` drawn in `[0, variants.length)` (modelled as `i % length`);
`none` on an empty variant list. -/
def getRandomVariant (block : EmailBlock) (i : Nat) : Option Variant :=
  if block.variants.length == 0 then none
  else block.variants.get? (i % block.variants.length)

/-! ## Composer (`EmailComposer`, email-composer.ts) -/

/-- The `event` record of the loaded event details; every field is
optional (`eventDetails.event?.x`). -/
structure Event where
  name : Value
  date : Value
  time : Value
  location : Value
  website : Value
  ticket_url : Value
  contest_url : Value
  press_kit_url : Value
deriving DecidableEq, Repr

/-- An audience configuration entry (`audiences.json` /
`getDefaultAudienceConfigs`). -/
structure AudienceConfig where
  name : String
  tone : String
  intention : String
  valueProps : List String
  cta : String
  eventInfo : Value
  tags : List String
  subjectTemplate : Value
deriving DecidableEq, Repr

/-- The optional `blockOverrides` of the composition options; an absent
override object collapses to all-absent fields (`?.`). -/
structure BlockOverrides where
  greeting : Value
  opener : Value
  intention : Value
  eventInfo : Value
  valueProps : Option (List String)
  cta : Value
  closing : Value
deriving DecidableEq, Repr

/-- `EmailCompositionOptions`.  The behavioural fields are read by the
code; `variantPreferences` — a map from block identifier to a preferred
variant identifier — is modelled from the spec's data model (§3,
"Composition Options"; the type declarations file is not in the
repository snapshot) and is never read by `composeEmail`. -/
structure EmailCompositionOptions where
  tone : Value
  customVariables : Obj
  blockOverrides : BlockOverrides
  variantPreferences : List (String × String)
  strict : Bool
  keepPlaceholders : Bool
deriving DecidableEq, Repr

/-- The all-defaults options (`options = {}`). -/
def defaultOptions : EmailCompositionOptions :=
  { tone := none
    customVariables := []
    blockOverrides :=
      { greeting := none, opener := none, intention := none,
        eventInfo := none, valueProps := none, cta := none, closing := none }
    variantPreferences := []
    strict := false
    keepPlaceholders := false }

/-- The state of an initialized `EmailComposer`. -/
structure ComposerState where
  selector : SelectorState
  audienceConfigs : List (String × AudienceConfig)
  event : Event
deriving DecidableEq, Repr

/-- The named entries of `prepareVariables`, in source order: contact
identity/org/sender fields (defaulting to the empty string), event
defaults (the contact's `event_date` winning over the event's), and
`contact_email` falling back to `email`. -/
def namedVariables (ev : Event) (c : Obj) : List (String × Value) :=
  [ ("first_name", jsOr (getV c "first_name") (some "")),
    ("last_name", jsOr (getV c "last_name") (some "")),
    ("title", jsOr (getV c "title") (some "")),
    ("email", getV c "email"),
    ("organization_name", jsOr (getV c "organization_name") (some "")),
    ("company_name",
      jsOr (getV c "company_name") (jsOr (getV c "organization_name") (some ""))),
    ("sector", jsOr (getV c "sector") (some "biotech")),
    ("sender_name", jsOr (getV c "sender_name") (some "")),
    ("sender_title", jsOr (getV c "sender_title") (some "")),
    ("sender_email", jsOr (getV c "sender_email") (some "")),
    ("sender_organization", jsOr (getV c "sender_organization") (some "")),
    ("event_name", jsOr ev.name (some "")),
    ("event_date", jsOr (getV c "event_date") (jsOr ev.date (some ""))),
    ("event_time", jsOr ev.time (some "")),
    ("event_location", jsOr ev.location (some "")),
    ("event_website", jsOr ev.website (some "")),
    ("ticket_url", jsOr ev.ticket_url (some "")),
    ("contest_url", jsOr ev.contest_url (some "")),
    ("press_kit_url", jsOr ev.press_kit_url (some "")),
    ("contact_email", jsOr (getV c "contact_email") (getV c "email")) ]

/-- The keys excluded from the generic contact passthrough. -/
def passthroughExcluded : List String :=
  ["audience_type", "email", "first_name", "last_name"]

/-- The generic passthrough: every remaining key on the contact record,
in the contact's own key order. -/
def passthroughVariables (c : Obj) : List (String × Value) :=
  c.filter (fun p => !(passthroughExcluded.contains p.1))

/-- `EmailComposer.prepareVariables(contact, options)`: the object
literal assigning the named entries, then `...options.customVariables`,
then the generic contact passthrough — the assignment list, read with
last-assignment-wins lookup. -/
def prepareVariables (ev : Event) (c : Obj) (customVariables : Obj) : Obj :=
  namedVariables ev c ++ customVariables ++ passthroughVariables c

/-- The static per-audience-type default subject templates (the closed
enumeration in `generateSubject`). -/
def defaultSubjectTemplates (eventName : String) : List (String × String) :=
  [ ("nonprofits", "Partnership Opportunity: " ++ eventName),
    ("vcs", "Invitation: " ++ eventName ++ " - Biotech Startup Showcase"),
    ("startups-pitch", "Pitch Your Startup at " ++ eventName),
    ("startups-share", "Help Us Spread the Word: " ++ eventName),
    ("gradschools", "Student Opportunity: " ++ eventName),
    ("mentors", "Invitation to Judge: " ++ eventName ++ " Pitch Contest"),
    ("startup-factories", "Connect with Biotech Ecosystem: " ++ eventName),
    ("vips", "Personal Invitation: " ++ eventName),
    ("journalists", "Press Invitation: " ++ eventName) ]

/-- `EmailComposer.generateSubject(audienceType, contact)`: a truthy
`subjectTemplate` is substituted with `prepareVariables(contact)` — no
options, hence empty custom variables and non-strict substitution;
otherwise the per-audience default, else the generic
`Invitation: <event name>`.  (The error case is unreachable: non-strict
substitution never fails.) -/
def generateSubject (configs : List (String × AudienceConfig)) (ev : Event)
    (audienceType : String) (c : Obj) : Except String String :=
  let eventName := jsOrD ev.name "Event"
  let tmpl : Value :=
    match lookupLast configs audienceType with
    | some cfg => cfg.subjectTemplate
    | none => none
  if truthy tmpl then
    substitute (tmpl.getD "") (prepareVariables ev c []) false false
  else
    .ok ((lookupLast (defaultSubjectTemplates eventName) audienceType).getD
      ("Invitation: " ++ eventName))

/-- A composition failure: the thrown `Unknown audience type: <t>` or a
strict-mode `Missing required variable: <name>`. -/
inductive ComposeError where
  | unknownAudience (audienceType : String)
  | missingVariable (name : String)
deriving DecidableEq, Repr

/-- Which block identifier was used per category. -/
structure BlocksUsed where
  greeting : Option String
  opener : Option String
  intention : Option String
  eventInfo : Option String
  valueProps : List String
  cta : Option String
  closing : Option String
deriving DecidableEq, Repr

/-- The metadata of a composed email. -/
structure EmailMetadata where
  audience_type : String
  tone : String
  blocks_used : BlocksUsed
  variables_used : List String
deriving DecidableEq, Repr

/-- A composed email. -/
structure ComposedEmail where
  subject : String
  body : String
  metadata : EmailMetadata
deriving DecidableEq, Repr

/-- Substitute one selected block's variant text, pairing the result
with the block identifier; an unresolved category yields `none`. -/
def substSel (vars : Obj) (strict keep : Bool)
    (sel : Option (EmailBlock × Variant)) :
    Except String (Option (String × String)) :=
  match sel with
  | none => .ok none
  | some (b, v) => (substitute v.text vars strict keep).map (fun t => some (t, b.id))

/-- The assembly phase of `composeEmail`: substitute each selected
variant in fixed order (greeting, opener, intention, event-info, the
value propositions in list order, cta, closing), skip unresolved
categories, join the texts with a blank-line separator, and return the
composed email with its metadata; a strict-mode substitution failure
aborts the whole composition. -/
def composeAssemble (audienceType tone : String) (vars : Obj)
    (strict keep : Bool)
    (greeting opener intention eventInfo : Option (EmailBlock × Variant))
    (valueProps : List (Option (EmailBlock × Variant)))
    (cta closing : Option (EmailBlock × Variant))
    (subjectE : Except String String) : Except ComposeError ComposedEmail := do
  let g ← (substSel vars strict keep greeting).mapError
    ComposeError.missingVariable
  let op ← (substSel vars strict keep opener).mapError
    ComposeError.missingVariable
  let it ← (substSel vars strict keep intention).mapError
    ComposeError.missingVariable
  let ei ← (substSel vars strict keep eventInfo).mapError
    ComposeError.missingVariable
  let vps ← (mapMExcept (substSel vars strict keep) valueProps).mapError
    ComposeError.missingVariable
  let ct ← (substSel vars strict keep cta).mapError
    ComposeError.missingVariable
  let cl ← (substSel vars strict keep closing).mapError
    ComposeError.missingVariable
  let subject ← subjectE.mapError ComposeError.missingVariable
  let vpResolved := vps.filterMap id
  let blocks := ([g, op, it, ei].filterMap id).map (·.1) ++
    vpResolved.map (·.1) ++ ([ct, cl].filterMap id).map (·.1)
  let body := String.intercalate "\n\n" blocks
  .ok
    { subject := subject
      body := body
      metadata :=
        { audience_type := audienceType
          tone := tone
          blocks_used :=
            { greeting := g.map (·.2), opener := op.map (·.2),
              intention := it.map (·.2), eventInfo := ei.map (·.2),
              valueProps := vpResolved.map (·.2),
              cta := ct.map (·.2), closing := cl.map (·.2) }
          variables_used := extractPlaceholders body } }

/-- `EmailComposer.composeEmail(contact, options)`. -/
def composeEmail (st : ComposerState) (contact : Obj)
    (opts : EmailCompositionOptions) : Except ComposeError ComposedEmail :=
  let audienceType := getStr contact "audience_type"
  match lookupLast st.audienceConfigs audienceType with
  | none => .error (.unknownAudience audienceType)
  | some cfg =>
    let tone := jsOrD opts.tone cfg.tone
    let vars := prepareVariables st.event contact opts.customVariables
    let greeting := selectBlock st.selector "greeting"
      (jsOrD opts.blockOverrides.greeting tone) none
    let opener := selectBlock st.selector "opener"
      (jsOrD opts.blockOverrides.opener cfg.intention) none
    let intention := selectBlock st.selector "intention"
      (jsOrD opts.blockOverrides.intention cfg.intention) none
    let eventInfo := selectBlock st.selector "event-info"
      (jsOrD opts.blockOverrides.eventInfo (jsOrD cfg.eventInfo "brief")) none
    let vpSelectors := (opts.blockOverrides.valueProps).getD cfg.valueProps
    let valueProps := vpSelectors.map
      (fun s => selectBlock st.selector "value-proposition" s none)
    let cta := selectBlock st.selector "cta"
      (jsOrD opts.blockOverrides.cta cfg.cta) none
    let closing := selectBlock st.selector "closing"
      (jsOrD opts.blockOverrides.closing tone) none
    composeAssemble audienceType tone vars opts.strict opts.keepPlaceholders
      greeting opener intention eventInfo valueProps cta closing
      (generateSubject st.audienceConfigs st.event audienceType contact)

/-- One entry of a batch result. -/
structure BatchResult where
  contact : Obj
  email : ComposedEmail
  error : Option ComposeError
deriving DecidableEq, Repr

/-- The empty composed-email shape recorded for a failed contact. -/
def emptyComposed (contact : Obj) : ComposedEmail :=
  { subject := ""
    body := ""
    metadata :=
      { audience_type := getStr contact "audience_type"
        tone := "casual"
        blocks_used :=
          { greeting := none, opener := none, intention := none,
            eventInfo := none, valueProps := [], cta := none, closing := none }
        variables_used := [] } }

/-- The per-contact step of the batch driver: effective options are the
per-contact entry keyed by the contact's email, else the global options;
a failure is captured into the result entry. -/
def batchStep (st : ComposerState) (globalOptions : EmailCompositionOptions)
    (perContact : List (String × EmailCompositionOptions)) (c : Obj) :
    BatchResult :=
  let opts := (lookupLast perContact (getStr c "email")).getD globalOptions
  match composeEmail st c opts with
  | .ok e => { contact := c, email := e, error := none }
  | .error err => { contact := c, email := emptyComposed c, error := some err }

/-- `EmailComposer.composeBatch(contacts, globalOptions,
perContactOptions)`: the sequential loop over the contacts, each result
pushed in input order. -/
def composeBatch (st : ComposerState) :
    List Obj → EmailCompositionOptions →
    List (String × EmailCompositionOptions) → List BatchResult
  | [], _, _ => []
  | c :: rest, g, p => batchStep st g p c :: composeBatch st rest g p

/-! ## Concrete fixtures (used by witnesses and counterexamples) -/

/-- A small event record. -/
def fxEvent : Event :=
  { name := some "Summit", date := some "2024-06-01", time := none,
    location := none, website := none, ticket_url := none,
    contest_url := none, press_kit_url := none }

/-- First variant of the greeting fixture block. -/
def fxVariantA : Variant := { id := "v1", text := "Dear \x7b\x7bfirst_name\x7d\x7d," }

/-- Second variant of the greeting fixture block. -/
def fxVariantB : Variant := { id := "v2", text := "Hi \x7b\x7bfirst_name\x7d\x7d!" }

/-- A greeting block with a formal tone and two variants. -/
def fxGreeting : EmailBlock :=
  { id := "greeting-formal", category := "greeting", tags := ["formal-tag"],
    tone := some "formal", variants := [fxVariantA, fxVariantB] }

/-- A call-to-action block matched by tag. -/
def fxCta : EmailBlock :=
  { id := "cta-buy", category := "cta", tags := ["buy-ticket"], tone := none,
    variants := [{ id := "c1", text := "Buy at \x7b\x7bticket_url\x7d\x7d" }] }

/-- A closing block with zero variants (unusable). -/
def fxEmptyBlock : EmailBlock :=
  { id := "closing-empty", category := "closing", tags := ["x"],
    tone := some "casual", variants := [] }

/-- A loaded selector state. -/
def fxSelector : SelectorState :=
  { blocks := [("greeting/formal", fxGreeting)],
    byCategory := [("greeting", [fxGreeting]), ("cta", [fxCta]),
      ("closing", [fxEmptyBlock])] }

/-- A `vcs` audience configuration without a subject template. -/
def fxConfigVcs : AudienceConfig :=
  { name := "VCs", tone := "formal", intention := "invite-attend",
    valueProps := [], cta := "buy-ticket", eventInfo := some "brief",
    tags := [], subjectTemplate := none }

/-- The same configuration with a subject template carrying a
placeholder covered only by `options.customVariables`. -/
def fxConfigTmpl : AudienceConfig :=
  { fxConfigVcs with subjectTemplate := some "\x7b\x7bpromo\x7d\x7d" }

/-- A composer state with the loaded selector and the plain `vcs`
configuration. -/
def fxState : ComposerState :=
  { selector := fxSelector, audienceConfigs := [("vcs", fxConfigVcs)],
    event := fxEvent }

/-- A composer state whose `vcs` configuration has the subject
template. -/
def fxStateTmpl : ComposerState :=
  { selector := { blocks := [], byCategory := [] },
    audienceConfigs := [("vcs", fxConfigTmpl)], event := fxEvent }

/-- A composer state with no audience configurations at all. -/
def fxStateEmpty : ComposerState :=
  { selector := { blocks := [], byCategory := [] },
    audienceConfigs := [], event := fxEvent }

/-- A contact of the `vcs` audience. -/
def fxContact : Obj :=
  [("audience_type", some "vcs"), ("email", some "a@x.com"),
   ("first_name", some "Ada")]

/-- A contact with an audience type absent from every fixture
configuration. -/
def fxContactBad : Obj :=
  [("audience_type", some "nope"), ("email", some "b@x.com")]

/-- A contact carrying a `title` property (part of the generic
passthrough, since `title` is not among the four excluded keys). -/
def fxContactTitled : Obj :=
  [("audience_type", some "vcs"), ("email", some "a@x.com"),
   ("title", some "Dr")]

/-- A contact whose `sector` property is the empty string: the named
`sector` entry defaults it to `"biotech"`, the passthrough re-assigns
the raw empty string. -/
def fxContactSector : Obj :=
  [("audience_type", some "vcs"), ("email", some "a@x.com"),
   ("sector", some "")]

/-- Options whose only content is a custom variable covering the
fixture subject template's placeholder. -/
def fxOptsPromo : EmailCompositionOptions :=
  { defaultOptions with customVariables := [("promo", some "X")] }

/-- The composed email `composeEmail fxStateTmpl fxContact fxOptsPromo`
produces: an empty selector yields an empty body, and the subject
template's placeholder is emptied because the subject map is built
without the options. -/
def fxComposedTmpl : ComposedEmail :=
  { subject := ""
    body := ""
    metadata :=
      { audience_type := "vcs"
        tone := "formal"
        blocks_used :=
          { greeting := none, opener := none, intention := none,
            eventInfo := none, valueProps := [], cta := none, closing := none }
        variables_used := [] } }

/-! ## Infrastructure lemmas -/

instance [DecidableEq ε] [DecidableEq α] : DecidableEq (Except ε α) := fun x y =>
  match x, y with
  | .ok a, .ok b =>
    if h : a = b then isTrue (by rw [h])
    else isFalse (fun hh => by cases hh; exact h rfl)
  | .error a, .error b =>
    if h : a = b then isTrue (by rw [h])
    else isFalse (fun hh => by cases hh; exact h rfl)
  | .ok _, .error _ => isFalse (fun hh => by cases hh)
  | .error _, .ok _ => isFalse (fun hh => by cases hh)

theorem takeWhileWord_eq (l : List Char) :
    (takeWhileWord l).1 ++ (takeWhileWord l).2 = l := by
  induction l with
  | nil => simp [takeWhileWord]
  | cons c cs ih =>
    simp only [takeWhileWord]
    by_cases h : isWordChar c
    · simp [h, ih]
    · simp [h]

theorem matchTok_some {cs : List Char} {n : String} {rest : List Char}
    (h : matchTok cs = some (n, rest)) :
    n.data ≠ [] ∧ cs = '{' :: '{' :: (n.data ++ '}' :: '}' :: rest) := by
  unfold matchTok at h
  split at h
  · rename_i r0
    split at h
    · rename_i w0 w rest2 heq
      injection h with h1
      injection h1 with hn hrest
      subst hn
      subst hrest
      have hr : (w0 :: w) ++ ('}' :: '}' :: rest2) = r0 := by
        have h2 := takeWhileWord_eq r0
        rw [heq] at h2
        simpa using h2
      constructor
      · simp
      · rw [← hr]
    · exact absurd h (by simp)
  · exact absurd h (by simp)

theorem matchTok_length {cs : List Char} {n : String} {rest : List Char}
    (h : matchTok cs = some (n, rest)) :
    rest.length + 5 ≤ cs.length := by
  obtain ⟨hne, hcs⟩ := matchTok_some h
  have h1 : 1 ≤ n.data.length := by
    cases hd : n.data with
    | nil => exact absurd hd hne
    | cons a l => simp
  subst hcs
  simp only [List.length_cons, List.length_append]
  omega

theorem mapMExcept_map_inl (vars : Obj) (strict keep : Bool) (l : List Char) :
    mapMExcept
      (fun it =>
        match it with
        | Sum.inl ch => Except.ok [ch]
        | Sum.inr n => resolveTokenSpec vars strict keep n)
      (l.map Sum.inl) = .ok (l.map (fun c => [c])) := by
  induction l with
  | nil => rfl
  | cons c cs ih => simp [mapMExcept, ih]

theorem flatten_singletons (l : List Char) : (l.map (fun c => [c])).flatten = l := by
  induction l with
  | nil => rfl
  | cons c cs ih => simp [ih]

theorem resolveTokenSpec_found {vars : Obj} {name : String} {v : Value}
    (strict keep : Bool) (hl : lookupLast vars name = some v) :
    resolveTokenSpec vars strict keep name = .ok ((v.getD "").data) := by
  cases v <;> simp [resolveTokenSpec, hl]

theorem resolveTokenSpec_missing_strict {vars : Obj} {name : String}
    (keep : Bool) (hl : lookupLast vars name = none) :
    resolveTokenSpec vars true keep name = .error name := by
  simp [resolveTokenSpec, hl]

theorem resolveTokenSpec_missing {vars : Obj} {name : String}
    (keep : Bool) (hl : lookupLast vars name = none) :
    resolveTokenSpec vars false keep name =
      .ok (if keep then tokenChars name else []) := by
  simp [resolveTokenSpec, hl]

theorem substGo_eq_scan (vars : Obj) (strict keep : Bool) :
    ∀ (fuel : Nat) (cs : List Char),
    substGo vars strict keep fuel cs =
      (mapMExcept
        (fun it =>
          match it with
          | Sum.inl ch => Except.ok [ch]
          | Sum.inr n => resolveTokenSpec vars strict keep n)
        (scanGo fuel cs)).map List.flatten := by
  intro fuel
  induction fuel with
  | zero =>
    intro cs
    cases cs with
    | nil => rfl
    | cons c cs =>
      simp only [substGo, scanGo, mapMExcept_map_inl, Except.map]
      rw [flatten_singletons]
  | succ fuel ih =>
    intro cs
    cases cs with
    | nil => rfl
    | cons c cs =>
      simp only [substGo, scanGo]
      cases hm : matchTok (c :: cs) with
      | none =>
        simp only [mapMExcept, ih cs]
        cases hmm : mapMExcept
            (fun it =>
              match it with
              | Sum.inl ch => Except.ok [ch]
              | Sum.inr n => resolveTokenSpec vars strict keep n)
            (scanGo fuel cs) with
        | error e => simp [Except.map, hmm]
        | ok bs => simp [Except.map, hmm]
      | some p =>
        obtain ⟨name, rest⟩ := p
        simp only [mapMExcept]
        cases hl : lookupLast vars name with
        | some v =>
          rw [resolveTokenSpec_found strict keep hl, ih rest]
          cases hmm : mapMExcept
              (fun it =>
                match it with
                | Sum.inl ch => Except.ok [ch]
                | Sum.inr n => resolveTokenSpec vars strict keep n)
              (scanGo fuel rest) with
          | error e => simp [Except.map, hmm]
          | ok bs => simp [Except.map, hmm]
        | none =>
          cases strict with
          | true =>
            rw [resolveTokenSpec_missing_strict keep hl]
            simp [Except.map]
          | false =>
            rw [resolveTokenSpec_missing keep hl, ih rest]
            cases hmm : mapMExcept
                (fun it =>
                  match it with
                  | Sum.inl ch => Except.ok [ch]
                  | Sum.inr n => resolveTokenSpec vars false keep n)
                (scanGo fuel rest) with
            | error e => simp [Except.map, hmm]
            | ok bs => simp [Except.map, hmm]

theorem foldl_pushUnique_ne_nil (l : List String) (acc : List String)
    (h : acc ≠ []) : l.foldl pushUnique acc ≠ [] := by
  induction l generalizing acc with
  | nil => exact h
  | cons n l ih =>
    apply ih
    unfold pushUnique
    split
    · exact h
    · simp

theorem eq_nil_of_foldl_pushUnique {l : List String}
    (h : l.foldl pushUnique [] = []) : l = [] := by
  cases l with
  | nil => rfl
  | cons n l =>
    exfalso
    apply foldl_pushUnique_ne_nil l (pushUnique [] n) (by simp [pushUnique])
    simpa [List.foldl] using h

theorem matchTok_none_of_head {c : Char} (cs : List Char) (h : c ≠ '{') :
    matchTok (c :: cs) = none := by
  cases hm : matchTok (c :: cs) with
  | none => rfl
  | some p =>
    obtain ⟨name, rest⟩ := p
    obtain ⟨_, hcs⟩ := matchTok_some hm
    injection hcs with hc
    exact absurd hc h

theorem substGo_id_of_extractGo_nil (vars : Obj) (strict keep : Bool) :
    ∀ (fuel : Nat) (cs : List Char), extractGo fuel cs = [] →
    substGo vars strict keep fuel cs = .ok cs := by
  intro fuel
  induction fuel with
  | zero => intro cs h; cases cs <;> rfl
  | succ fuel ih =>
    intro cs h
    cases cs with
    | nil => rfl
    | cons c cs =>
      simp only [substGo]
      simp only [extractGo] at h
      cases hm : matchTok (c :: cs) with
      | some p => rw [hm] at h; simp at h
      | none =>
        rw [hm] at h
        rw [ih cs h]
        rfl

theorem substGo_empty_keep_id (fuel : Nat) (cs : List Char) :
    substGo [] false true fuel cs = .ok cs := by
  induction fuel generalizing cs with
  | zero => cases cs <;> rfl
  | succ fuel ih =>
    cases cs with
    | nil => rfl
    | cons c cs =>
      simp only [substGo]
      cases hm : matchTok (c :: cs) with
      | none => rw [ih]; rfl
      | some p =>
        obtain ⟨name, rest⟩ := p
        obtain ⟨_, hcs⟩ := matchTok_some hm
        dsimp only
        have hl : lookupLast ([] : Obj) name = none := rfl
        rw [hl, ih]
        simp [Except.map, hcs, tokenChars]

theorem substGo_nonstrict_ok (vars : Obj) (keep : Bool) (fuel : Nat)
    (cs : List Char) : ∃ s, substGo vars false keep fuel cs = .ok s := by
  induction fuel generalizing cs with
  | zero => cases cs <;> exact ⟨_, rfl⟩
  | succ fuel ih =>
    cases cs with
    | nil => exact ⟨_, rfl⟩
    | cons c cs =>
      simp only [substGo]
      cases hm : matchTok (c :: cs) with
      | none =>
        obtain ⟨s, hs⟩ := ih cs
        exact ⟨c :: s, by rw [hs]; rfl⟩
      | some p =>
        obtain ⟨name, rest⟩ := p
        dsimp only
        cases hl : lookupLast vars name with
        | some v =>
          obtain ⟨s, hs⟩ := ih rest
          exact ⟨(v.getD "").data ++ s, by rw [hs]; rfl⟩
        | none =>
          obtain ⟨s, hs⟩ := ih rest
          refine ⟨(if keep then tokenChars name else []) ++ s, ?_⟩
          rw [hs]
          simp [Except.map]

/-- All characters are outside `{`/`}`. -/
def noBraces (l : List Char) : Bool :=
  l.all (fun c => !(c == '{') && !(c == '}'))

/-- A scan item is a literal brace character (the failure mode that can
re-introduce placeholders around a substitution). -/
def litOk (it : Char ⊕ String) : Bool :=
  match it with
  | Sum.inl c => !(c == '{') && !(c == '}')
  | Sum.inr _ => true

/-- A scan token is covered by the variable map with a brace-free
value. -/
def tokOk (vars : Obj) (it : Char ⊕ String) : Bool :=
  match it with
  | Sum.inl _ => true
  | Sum.inr n =>
    match lookupLast vars n with
    | some v => noBraces (v.getD "").data
    | none => false

/-- The hypothesis of the amended no-residual-token claim: every
literal (non-placeholder) character of the text is brace-free and every
placeholder is covered by a brace-free value. -/
def coveredBraceFree (vars : Obj) (t : String) : Bool :=
  (scanGo t.data.length t.data).all (fun it => litOk it && tokOk vars it)

theorem extractGo_nil_of_no_lbrace :
    ∀ (fuel : Nat) (cs : List Char), cs.all (fun c => !(c == '{')) = true →
    extractGo fuel cs = [] := by
  intro fuel
  induction fuel with
  | zero => intro cs h; cases cs <;> rfl
  | succ fuel ih =>
    intro cs h
    cases cs with
    | nil => rfl
    | cons c cs =>
      simp only [List.all_cons, Bool.and_eq_true] at h
      have hc : c ≠ '{' := by
        intro hcc
        subst hcc
        simp at h
      simp only [extractGo]
      rw [matchTok_none_of_head cs hc]
      exact ih cs h.2

theorem substGo_output_brace_free (vars : Obj) :
    ∀ (fuel : Nat) (cs s : List Char),
    (scanGo fuel cs).all (fun it => litOk it && tokOk vars it) = true →
    substGo vars false false fuel cs = .ok s →
    noBraces s = true := by
  intro fuel
  induction fuel with
  | zero =>
    intro cs s h hs
    cases cs with
    | nil =>
      injection hs with hs
      subst hs
      rfl
    | cons c cs =>
      injection hs with hs
      subst hs
      simp only [scanGo] at h
      unfold noBraces
      simp only [List.all_eq_true] at h ⊢
      intro x hx
      have := h (Sum.inl x) (List.mem_map_of_mem Sum.inl hx)
      simpa [litOk, tokOk] using this
  | succ fuel ih =>
    intro cs s h hs
    cases cs with
    | nil =>
      injection hs with hs
      subst hs
      rfl
    | cons c cs =>
      simp only [substGo] at hs
      simp only [scanGo] at h
      cases hm : matchTok (c :: cs) with
      | none =>
        rw [hm] at hs h
        dsimp only at hs
        simp only [List.all_cons, Bool.and_eq_true] at h
        cases hsub : substGo vars false false fuel cs with
        | error e => rw [hsub] at hs; exact absurd hs (by simp [Except.map])
        | ok r =>
          rw [hsub] at hs
          simp only [Except.map] at hs
          injection hs with hs
          subst hs
          unfold noBraces
          simp only [List.all_cons, Bool.and_eq_true]
          refine ⟨?_, ih cs r h.2 hsub⟩
          have := h.1
          simpa [litOk, tokOk] using this.1
      | some p =>
        obtain ⟨name, rest⟩ := p
        rw [hm] at hs h
        dsimp only at hs
        simp only [List.all_cons, Bool.and_eq_true] at h
        cases hl : lookupLast vars name with
        | none =>
          exfalso
          have := h.1.2
          simp [tokOk, hl] at this
        | some v =>
          rw [hl] at hs
          cases hsub : substGo vars false false fuel rest with
          | error e => rw [hsub] at hs; exact absurd hs (by simp [Except.map])
          | ok r =>
            rw [hsub] at hs
            simp only [Except.map] at hs
            injection hs with hs
            subst hs
            unfold noBraces
            rw [List.all_append]
            have hv : noBraces (v.getD "").data = true := by
              have := h.1.2
              simpa [tokOk, hl] using this
            have hr : noBraces r = true := ih rest r h.2 hsub
            unfold noBraces at hv hr
            simp [hv, hr]

theorem lookupLast_append (a b : List (String × α)) (k : String) :
    lookupLast (a ++ b) k =
      match lookupLast b k with
      | some v => some v
      | none => lookupLast a k := by
  unfold lookupLast
  rw [List.reverse_append, List.find?_append]
  cases hb : b.reverse.find? (fun p => p.1 == k) with
  | none => simp [hb, Option.orElse]
  | some p => simp [hb, Option.orElse]

/-! ## Claim theorems -/

/-- C3: `substitute` replaces every occurrence of every `\x7b\x7bname\x7d\x7d`
token (`name` matching `[A-Za-z0-9_]+`, the scan) according to the
per-token policy: present and non-null ⇒ the stringified value; present
but null/undefined ⇒ the empty string; absent with strict mode on ⇒ the
whole substitution aborts with a `MissingVariable` error naming the
token; absent with strict mode off ⇒ the empty string, unless
`keepPlaceholders` is set, in which case the literal token is kept. -/
theorem substitute_token_policy (text : String) (vars : Obj)
    (strict keep : Bool) :
    substitute text vars strict keep = substituteSpec text vars strict keep := by
  unfold substitute substituteSpec
  rw [substGo_eq_scan]
  cases h : mapMExcept
      (fun it =>
        match it with
        | Sum.inl ch => Except.ok [ch]
        | Sum.inr n => resolveTokenSpec vars strict keep n)
      (scanGo text.data.length text.data) with
  | error e => simp [Except.map]
  | ok l => simp [Except.map]

/-- C9: `substitute` is the identity on placeholder-free text, for any
variable map and flags; and with the empty variable map and
`keepPlaceholders` set it returns any input unchanged. -/
theorem substitute_identity (t : String) (vars : Obj) (strict keep : Bool) :
    (extractPlaceholders t = [] → substitute t vars strict keep = .ok t) ∧
    substitute t [] false true = .ok t := by
  constructor
  · intro h
    unfold extractPlaceholders at h
    have h2 := eq_nil_of_foldl_pushUnique h
    unfold substitute
    rw [substGo_id_of_extractGo_nil vars strict keep _ _ h2]
    rfl
  · unfold substitute
    rw [substGo_empty_keep_id]
    rfl

/-- C9 witness: a concrete placeholder-free text is returned unchanged
(even in strict mode), and a text with a placeholder round-trips under
`keepPlaceholders` with the empty map. -/
theorem substitute_identity_witness :
    extractPlaceholders "Hello Ada" = [] ∧
    substitute "Hello Ada" [("x", some "1")] true false = .ok "Hello Ada" ∧
    substitute "Hi \x7b\x7bname\x7d\x7d" [] false true =
      .ok "Hi \x7b\x7bname\x7d\x7d" :=
  ⟨by decide,
   (substitute_identity "Hello Ada" [("x", some "1")] true false).1 (by decide),
   (substitute_identity "Hi \x7b\x7bname\x7d\x7d" [] false true).2⟩

/-- C8 (counterexample): full coverage of a text's placeholders does not
guarantee a residual-free output of non-strict substitution — a value
containing a placeholder token, or stray braces in the text adjacent to
a placeholder, re-introduce tokens.  Here `\x7b\x7bx\x7d\x7d` with
`x ↦ "\x7b\x7by\x7d\x7d"` is fully covered yet yields a text whose
placeholder set is nonempty, and the fully-covered
`\x7b\x7b\x7b\x7ba\x7d\x7d\x7d\x7d` with the brace-free value `a ↦ "x"`
yields `\x7b\x7bx\x7d\x7d`. -/
theorem substitute_residual_cex :
    ((extractPlaceholders "\x7b\x7bx\x7d\x7d").all
        (fun nm => (lookupLast [("x", some "\x7b\x7by\x7d\x7d")] nm).isSome) = true ∧
      substitute "\x7b\x7bx\x7d\x7d" [("x", some "\x7b\x7by\x7d\x7d")] false false =
        .ok "\x7b\x7by\x7d\x7d" ∧
      extractPlaceholders "\x7b\x7by\x7d\x7d" = ["y"]) ∧
    ((extractPlaceholders "\x7b\x7b\x7b\x7ba\x7d\x7d\x7d\x7d").all
        (fun nm => (lookupLast [("a", some "x")] nm).isSome) = true ∧
      substitute "\x7b\x7b\x7b\x7ba\x7d\x7d\x7d\x7d" [("a", some "x")] false false =
        .ok "\x7b\x7bx\x7d\x7d" ∧
      extractPlaceholders "\x7b\x7bx\x7d\x7d" = ["x"]) :=
  ⟨⟨by decide, by decide, by decide⟩, ⟨by decide, by decide, by decide⟩⟩

/-- C8 (amended): non-strict, non-keeping substitution leaves no
residual placeholder when every literal character of the text outside
its placeholders is brace-free and every placeholder is covered by a
brace-free value (`coveredBraceFree`). -/
theorem substitute_no_residual (t : String) (vars : Obj) (s : String)
    (hcond : coveredBraceFree vars t = true)
    (hs : substitute t vars false false = .ok s) :
    extractPlaceholders s = [] := by
  unfold substitute at hs
  cases hsub : substGo vars false false t.data.length t.data with
  | error e => rw [hsub] at hs; exact absurd hs (by simp [Except.map])
  | ok l =>
    rw [hsub] at hs
    simp only [Except.map] at hs
    injection hs with hs
    have hnb : noBraces l = true :=
      substGo_output_brace_free vars t.data.length t.data l hcond hsub
    have hdata : s.data = l := by rw [← hs]
    unfold extractPlaceholders
    rw [hdata]
    rw [extractGo_nil_of_no_lbrace]
    · rfl
    · unfold noBraces at hnb
      simp only [List.all_eq_true] at hnb ⊢
      intro c hc
      have := hnb c hc
      simp only [Bool.and_eq_true] at this
      exact this.1

/-- C8 witness: a concrete fully-covered, brace-clean substitution
leaves no residual tokens. -/
theorem substitute_no_residual_witness :
    coveredBraceFree [("first_name", some "Ada"), ("event_name", some "Summit")]
      "Hello \x7b\x7bfirst_name\x7d\x7d, join \x7b\x7bevent_name\x7d\x7d." = true ∧
    extractPlaceholders "Hello Ada, join Summit." = [] :=
  ⟨by decide,
   substitute_no_residual
     "Hello \x7b\x7bfirst_name\x7d\x7d, join \x7b\x7bevent_name\x7d\x7d."
     [("first_name", some "Ada"), ("event_name", some "Summit")]
     "Hello Ada, join Summit." (by decide) (by decide)⟩

/-- C4: `selectBlock` resolves its block by trying, in priority order
with first match winning: (1) the exact identifier load of
`category/selector`, (2) the first block of the category whose tag set
contains the selector, (3) the first block of the category whose tone
equals the selector; when none matches the result is not-found (`none`,
total — never a thrown error). -/
theorem selectBlock_resolution_order (st : SelectorState)
    (category selector : String) (variantId : Option String) :
    (∀ b, loadBlock st (category ++ "/" ++ selector) = some b →
      resolveBlock st category selector = some b) ∧
    (loadBlock st (category ++ "/" ++ selector) = none →
      ∀ b, (getBlocksByCategory st category).find?
          (fun x => x.tags.contains selector) = some b →
        resolveBlock st category selector = some b) ∧
    (loadBlock st (category ++ "/" ++ selector) = none →
      (getBlocksByCategory st category).find?
          (fun x => x.tags.contains selector) = none →
      resolveBlock st category selector =
        (getBlocksByCategory st category).find?
          (fun x => x.tone == some selector)) ∧
    (resolveBlock st category selector = none →
      selectBlock st category selector variantId = none) := by
  refine ⟨?_, ?_, ?_, ?_⟩
  · intro b hb
    unfold resolveBlock
    rw [hb]
  · intro h1 b hb
    unfold resolveBlock
    rw [h1, hb]
  · intro h1 h2
    unfold resolveBlock
    rw [h1, h2]
  · intro h
    unfold selectBlock
    rw [h]

/-- C4 witness: in the fixture state, `cta/buy-ticket` has no entry in
the identifier store but the first `cta` block is matched by tag; a
selector matching nothing yields `none`. -/
theorem selectBlock_resolution_order_witness :
    loadBlock fxSelector ("cta" ++ "/" ++ "buy-ticket") = none ∧
    resolveBlock fxSelector "cta" "buy-ticket" = some fxCta ∧
    selectBlock fxSelector "cta" "nonexistent-selector" none = none :=
  ⟨by decide,
   (selectBlock_resolution_order fxSelector "cta" "buy-ticket" none).2.1
     (by decide) fxCta (by decide),
   (selectBlock_resolution_order fxSelector "cta" "nonexistent-selector"
     none).2.2.2 (by decide)⟩

/-- C5: on a matched block, a supplied `variantId` naming an existing
variant wins; otherwise the block's first variant is used
deterministically (`head?` — the random accessor plays no part); a
matched block with zero variants resolves to not-found. -/
theorem selectBlock_variant_resolution (st : SelectorState)
    (category selector : String) (block : EmailBlock)
    (h : resolveBlock st category selector = some block) :
    (∀ vid v, block.variants.find? (fun x => x.id == vid) = some v →
      selectBlock st category selector (some vid) = some (block, v)) ∧
    (selectBlock st category selector none =
      block.variants.head?.map (fun v => (block, v))) ∧
    (∀ vid, block.variants.find? (fun x => x.id == vid) = none →
      selectBlock st category selector (some vid) =
        block.variants.head?.map (fun v => (block, v))) ∧
    (block.variants = [] →
      ∀ vid, selectBlock st category selector vid = none) := by
  refine ⟨?_, ?_, ?_, ?_⟩
  · intro vid v hv
    unfold selectBlock
    rw [h]
    dsimp only
    rw [hv]
  · unfold selectBlock
    rw [h]
    dsimp only
    cases hh : block.variants.head? with
    | none => simp
    | some v => simp
  · intro vid hv
    unfold selectBlock
    rw [h]
    dsimp only
    rw [hv]
    cases hh : block.variants.head? with
    | none => simp
    | some v => simp
  · intro hnil vid
    unfold selectBlock
    rw [h]
    cases vid with
    | none => simp [hnil]
    | some v => simp [hnil]

/-- C5 witness: on the fixture greeting block, variant `v2` is chosen
when requested, the first variant is chosen by default, and the
zero-variant closing block resolves to `none`. -/
theorem selectBlock_variant_resolution_witness :
    selectBlock fxSelector "greeting" "formal" (some "v2") =
      some (fxGreeting, fxVariantB) ∧
    selectBlock fxSelector "greeting" "formal" none =
      some (fxGreeting, fxVariantA) ∧
    selectBlock fxSelector "closing" "casual" none = none :=
  ⟨(selectBlock_variant_resolution fxSelector "greeting" "formal" fxGreeting
      (by decide)).1 "v2" fxVariantB (by decide),
   by
    rw [(selectBlock_variant_resolution fxSelector "greeting" "formal"
      fxGreeting (by decide)).2.1]
    decide,
   (selectBlock_variant_resolution fxSelector "closing" "casual" fxEmptyBlock
      (by decide)).2.2.2 (by decide) none⟩

/-- C6 (counterexample): `options.customVariables` does not have the
highest precedence, and a named field does not always win over the
generic passthrough — the passthrough of remaining contact keys is
spread last and overwrites both.  `title` is in `customVariables`
(`"Prof"`) and in the contact's bag (`"Dr"`): the contact's value is
used.  The named `sector` entry (`"biotech"` default) is likewise
overwritten by the contact's raw empty string. -/
theorem prepareVariables_custom_overridden :
    (lookupLast [("title", some "Prof")] "title" = some (some "Prof") ∧
      lookupLast (passthroughVariables fxContactTitled) "title" =
        some (some "Dr") ∧
      lookupLast (prepareVariables fxEvent fxContactTitled
        [("title", some "Prof")]) "title" = some (some "Dr")) ∧
    (lookupLast (namedVariables fxEvent fxContactSector) "sector" =
        some (some "biotech") ∧
      lookupLast (prepareVariables fxEvent fxContactSector []) "sector" =
        some (some "")) :=
  ⟨⟨by decide, by decide, by decide⟩, ⟨by decide, by decide⟩⟩

/-- C6 (amended): the precedence of the variable map is, from highest
to lowest, the generic contact passthrough (every contact key outside
`audience_type`/`email`/`first_name`/`last_name`), then
`options.customVariables`, then the named default entries — the map is
built by sequential assignment and later segments overwrite earlier
ones. -/
theorem prepareVariables_precedence (ev : Event) (c : Obj) (custom : Obj)
    (k : String) :
    lookupLast (prepareVariables ev c custom) k =
      match lookupLast (passthroughVariables c) k with
      | some v => some v
      | none =>
        match lookupLast custom k with
        | some v => some v
        | none => lookupLast (namedVariables ev c) k := by
  unfold prepareVariables
  rw [lookupLast_append, lookupLast_append]
  cases h1 : lookupLast (passthroughVariables c) k with
  | some v => rfl
  | none =>
    cases h2 : lookupLast custom k with
    | some v => rfl
    | none => rfl

/-- C2: `composeEmail` on a contact whose `audience_type` has no entry
in the audience configuration fails with `UnknownAudience`, for any
other contact fields and any options. -/
theorem composeEmail_unknown_audience (st : ComposerState) (contact : Obj)
    (opts : EmailCompositionOptions)
    (h : lookupLast st.audienceConfigs (getStr contact "audience_type") = none) :
    composeEmail st contact opts =
      .error (.unknownAudience (getStr contact "audience_type")) := by
  simp [composeEmail, h]

/-- C2 witness: the fixture contact with audience type `nope` fails
against the fixture configuration. -/
theorem composeEmail_unknown_audience_witness :
    lookupLast fxState.audienceConfigs (getStr fxContactBad "audience_type") =
      none ∧
    composeEmail fxState fxContactBad defaultOptions =
      .error (.unknownAudience "nope") :=
  ⟨by decide, by
    rw [composeEmail_unknown_audience fxState fxContactBad defaultOptions
      (by decide)]
    decide⟩

theorem exceptBind_ok {ε ε2 α β : Type} {x : Except ε α} {f : ε → ε2}
    {k : α → Except ε2 β} {b : β}
    (h : ((x.mapError f) >>= k) = .ok b) : ∃ a, x = .ok a ∧ k a = .ok b := by
  cases x with
  | error e =>
    exfalso
    simp [Except.mapError, Bind.bind, Except.bind] at h
  | ok a =>
    refine ⟨a, rfl, ?_⟩
    simpa [Except.mapError, Bind.bind, Except.bind] using h

theorem composeAssemble_subject {audienceType tone : String} {vars : Obj}
    {strict keep : Bool}
    {greeting opener intention eventInfo : Option (EmailBlock × Variant)}
    {valueProps : List (Option (EmailBlock × Variant))}
    {cta closing : Option (EmailBlock × Variant)}
    {subjectE : Except String String} {e : ComposedEmail}
    (h : composeAssemble audienceType tone vars strict keep greeting opener
      intention eventInfo valueProps cta closing subjectE = .ok e) :
    subjectE = .ok e.subject := by
  unfold composeAssemble at h
  obtain ⟨g, hg, h⟩ := exceptBind_ok h
  obtain ⟨op, hop, h⟩ := exceptBind_ok h
  obtain ⟨it, hit, h⟩ := exceptBind_ok h
  obtain ⟨ei, hei, h⟩ := exceptBind_ok h
  obtain ⟨vps, hvps, h⟩ := exceptBind_ok h
  obtain ⟨ct, hct, h⟩ := exceptBind_ok h
  obtain ⟨cl, hcl, h⟩ := exceptBind_ok h
  obtain ⟨subj, hsubj, h⟩ := exceptBind_ok h
  dsimp only at h
  injection h with h2
  subst h2
  exact hsubj

/-- C7 (counterexample): the subject is not the template substituted
with the body's variable map — `options.customVariables` cover the
template's placeholder with `"X"`, yet the composed subject is the
empty string. -/
theorem generateSubject_not_body_map_cex :
    composeEmail fxStateTmpl fxContact fxOptsPromo = .ok fxComposedTmpl ∧
    fxComposedTmpl.subject = "" ∧
    substitute "\x7b\x7bpromo\x7d\x7d"
      (prepareVariables fxEvent fxContact fxOptsPromo.customVariables)
      false false = .ok "X" :=
  ⟨by decide, by decide, by decide⟩

/-- C7 (amended): the subject of a successful `composeEmail` is
`generateSubject`, which substitutes a truthy subject template with a
variable map built from the contact ALONE (empty custom variables —
differing from the body's map exactly in the `options.customVariables`
entries); without a truthy template the subject is the static
per-audience-type default from the closed enumeration, and the generic
`Invitation: <event name>` when the audience type has no default. -/
theorem composeEmail_subject_derivation (st : ComposerState) (c : Obj)
    (opts : EmailCompositionOptions) (e : ComposedEmail)
    (h : composeEmail st c opts = .ok e) :
    generateSubject st.audienceConfigs st.event (getStr c "audience_type") c =
      .ok e.subject ∧
    (∀ cfg, lookupLast st.audienceConfigs (getStr c "audience_type") = some cfg →
      truthy cfg.subjectTemplate = true →
      generateSubject st.audienceConfigs st.event (getStr c "audience_type") c =
        substitute (cfg.subjectTemplate.getD "")
          (prepareVariables st.event c []) false false) ∧
    (∀ cfg, lookupLast st.audienceConfigs (getStr c "audience_type") = some cfg →
      truthy cfg.subjectTemplate = false →
      generateSubject st.audienceConfigs st.event (getStr c "audience_type") c =
        .ok ((lookupLast
            (defaultSubjectTemplates (jsOrD st.event.name "Event"))
            (getStr c "audience_type")).getD
          ("Invitation: " ++ jsOrD st.event.name "Event"))) := by
  refine ⟨?_, ?_, ?_⟩
  · simp only [composeEmail] at h
    cases hcfg : lookupLast st.audienceConfigs (getStr c "audience_type") with
    | none => rw [hcfg] at h; simp at h
    | some cfg =>
      rw [hcfg] at h
      dsimp only at h
      exact composeAssemble_subject h
  · intro cfg hcfg htru
    simp [generateSubject, hcfg, htru]
  · intro cfg hcfg htru
    simp [generateSubject, hcfg, htru]

/-- C7 witness: in the fixture state with a subject template, the
composed subject equals `generateSubject`'s output, the emptied
template. -/
theorem composeEmail_subject_derivation_witness :
    composeEmail fxStateTmpl fxContact fxOptsPromo = .ok fxComposedTmpl ∧
    generateSubject fxStateTmpl.audienceConfigs fxStateTmpl.event "vcs"
      fxContact = .ok "" :=
  ⟨by decide,
   (composeEmail_subject_derivation fxStateTmpl fxContact fxOptsPromo
     fxComposedTmpl (by decide)).1⟩

/-- C10: `composeEmail` never consults `options.variantPreferences` —
results are identical across any two values of it — and every
`selectBlock` call of the composition passes no variant identifier, so
the variant of every resolved block is that block's first variant
(`head?`). -/
theorem composeEmail_ignores_variant_preferences (st : ComposerState)
    (c : Obj) (opts : EmailCompositionOptions)
    (vp1 vp2 : List (String × String)) :
    composeEmail st c { opts with variantPreferences := vp1 } =
      composeEmail st c { opts with variantPreferences := vp2 } ∧
    (∀ (sst : SelectorState) (category selector : String),
      selectBlock sst category selector none =
        (resolveBlock sst category selector).bind
          (fun b => b.variants.head?.map (fun v => (b, v)))) := by
  constructor
  · rfl
  · intro sst category selector
    unfold selectBlock
    cases h : resolveBlock sst category selector with
    | none => rfl
    | some b =>
      dsimp only
      cases hh : b.variants.head? with
      | none => simp [hh]
      | some v => simp [hh]

/-- C1: `composeBatch` is the per-contact map in input order — one
result per contact, the effective options being the per-contact entry
for the contact's email when present, else the global options; a
failing contact yields an entry with the empty composed-email shape and
a populated error, and never disturbs the other entries. -/
theorem composeBatch_isolation (st : ComposerState) (cs : List Obj)
    (g : EmailCompositionOptions)
    (p : List (String × EmailCompositionOptions)) :
    (composeBatch st cs g p).length = cs.length ∧
    (∀ k : Nat, (composeBatch st cs g p)[k]? =
      (cs[k]?).map (batchStep st g p)) ∧
    (∀ (c : Obj) (e : ComposedEmail),
      composeEmail st c ((lookupLast p (getStr c "email")).getD g) = .ok e →
      batchStep st g p c = { contact := c, email := e, error := none }) ∧
    (∀ (c : Obj) (err : ComposeError),
      composeEmail st c ((lookupLast p (getStr c "email")).getD g) =
        .error err →
      batchStep st g p c =
        { contact := c, email := emptyComposed c, error := some err }) := by
  refine ⟨?_, ?_, ?_, ?_⟩
  · induction cs with
    | nil => rfl
    | cons c rest ih => simp [composeBatch, ih]
  · intro k
    induction cs generalizing k with
    | nil => simp [composeBatch]
    | cons c rest ih =>
      cases k with
      | zero => simp [composeBatch]
      | succ k => simp [composeBatch, ih]
  · intro c e h
    simp only [batchStep]
    rw [h]
  · intro c err h
    simp only [batchStep]
    rw [h]

/-- C1 witness: a contact with an unknown audience type produces a
populated error entry with the empty composed-email shape. -/
theorem composeBatch_isolation_witness :
    composeEmail fxState fxContactBad
      ((lookupLast ([] : List (String × EmailCompositionOptions))
        (getStr fxContactBad "email")).getD defaultOptions) =
      .error (.unknownAudience "nope") ∧
    batchStep fxState defaultOptions [] fxContactBad =
      { contact := fxContactBad, email := emptyComposed fxContactBad,
        error := some (.unknownAudience "nope") } :=
  ⟨by decide,
   (composeBatch_isolation fxState [fxContactBad] defaultOptions []).2.2.2
     fxContactBad (.unknownAudience "nope") (by decide)⟩

end Mautic
